import Mathlib

/-!
Shallow embedding of the gdax-bookmap feed client
(`src/exchanges/gdax/websocket/client.go` and the book-sync file
`src/unnamed/part_000`, package `websocket`), together with a model of the
collaborating `orderbook.Book` and `util.BookBatchWrite` entities, whose
source is not part of this repository snapshot; those are modelled from the
specification (spec.md sections 3, 4.1 and 4.3).

Go's `map[string]interface{}` payloads are embedded as association lists of
a JSON-like value type; Go's unchecked type assertions and out-of-range
indexing become an explicit `GoPanic` outcome; `float64` values parsed from
decimal strings are embedded as rationals.
-/

/-- A JSON-like dynamic value, the embedding of Go's `interface{}` as it
appears in decoded feed payloads: strings, numbers, and arrays. -/
inductive JValue
  | jstr (s : String)
  | jnum (q : ℚ)
  | jarr (a : List JValue)

/-- The embedding of Go's `map[string]interface{}`: an association list. -/
def JMap := List (String × JValue)

/-- Key lookup in a `JMap`; `none` is Go's nil interface obtained by
indexing a map at a missing key. -/
def lookupJ : JMap → String → Option JValue
  | [], _ => none
  | (k0, v0) :: rest, k => if k0 = k then some v0 else lookupJ rest k

/-- The embedding of Go's map assignment `m[k] = v`: replace the binding if
the key is present, otherwise add it. -/
def setKey : JMap → String → JValue → JMap
  | [], k, v => [(k, v)]
  | (k0, v0) :: rest, k, v =>
    if k0 = k then (k0, v) :: rest else (k0, v0) :: setKey rest k v

/-- A Go runtime abort: a failed single-valued type assertion such as
`data["price"].(string)`, or an out-of-range slice index. -/
inductive GoPanic
  | typeAssert
  | indexRange
deriving DecidableEq, Repr

/-- The embedding of the unchecked assertion `v.(string)` applied to the
result of a map lookup: a missing key (nil interface) or a non-string value
aborts the process. -/
def asString : Option JValue → Except GoPanic String
  | some (JValue.jstr s) => Except.ok s
  | _ => Except.error GoPanic.typeAssert

/-- The embedding of the unchecked assertion `v.([]interface{})`. -/
def asArr : Option JValue → Except GoPanic (List JValue)
  | some (JValue.jarr l) => Except.ok l
  | _ => Except.error GoPanic.typeAssert

/-- The embedding of `data[i].(string)` on a decoded JSON array: indexing
out of range aborts, then the string assertion applies. -/
def idxStr (l : List JValue) (i : ℕ) : Except GoPanic String :=
  match l.get? i with
  | none => Except.error GoPanic.indexRange
  | some v => asString (some v)

/-- Digit-string value: `some` of the base-10 value when every character is
a digit (the empty string giving 0), `none` otherwise. -/
def digitsVal (cs : List Char) : Option ℕ :=
  cs.foldl
    (fun acc c =>
      match acc with
      | none => none
      | some n => if c.isDigit then some (n * 10 + (c.toNat - 48)) else none)
    (some 0)

/-- Modelled from the spec: the feed's and snapshot's price/size fields are
decimal number strings (spec section 6), read in the source with
`strconv.ParseFloat(s, 64)` and the error discarded, which yields the value
0 on a malformed string. Embeds such strings as rationals; sign and
exponent forms, absent from the feed shape, are not modelled. -/
def parseFloat (s : String) : ℚ :=
  match s.splitOn "." with
  | [a] =>
    match digitsVal a.toList with
    | some n => (n : ℚ)
    | none => 0
  | [a, b] =>
    match digitsVal a.toList, digitsVal b.toList with
    | some n, some f => (n : ℚ) + (f : ℚ) / ((10 : ℚ) ^ b.length)
    | _, _ => 0
  | _ => 0

/-- The embedding of Go's conversion `uint64(f)` applied to a non-negative
decoded JSON number: truncation toward zero. -/
def ratToUint (q : ℚ) : ℕ := (⌊q⌋).toNat

/-- Modelled from the spec: an `orderbook.Order` (spec section 3), the
per-order record held in the book's order index. -/
structure Order where
  id : String
  side : String
  price : ℚ
  size : ℚ
deriving DecidableEq, Repr

/-- Modelled from the spec: a `Trade` record (spec section 3), produced by
match events and by change-as-match reinterpretation; `changeDerived` is
the flag passed as `Match`'s second argument in the source. -/
structure Trade where
  price : ℚ
  size : ℚ
  side : String
  makerId : String
  takerId : Option String
  time : Option String
  changeDerived : Bool
deriving DecidableEq, Repr

/-- Modelled from the spec: the per-product `orderbook.Book` (spec section
3): product id, current sequence number, the open-order index (kept here as
a list in insertion order), the append-only trade log, and the pending
depth-delta accumulator for each side (`book.Diff` in the source). -/
structure Book where
  ID : String
  Sequence : ℕ
  Orders : List Order
  Trades : List Trade
  DiffBid : List (ℚ × ℚ)
  DiffAsk : List (ℚ × ℚ)
deriving DecidableEq, Repr

/-- A fresh book as created by `orderbook.New(name)`: sequence 0, empty. -/
def Book.new (name : String) : Book := ⟨name, 0, [], [], [], []⟩

/-- Modelled from the spec: `Add` (spec section 4.1) inserts a new order
and silently drops a duplicate id. -/
def Book.add (b : Book) (o : Order) : Book :=
  if b.Orders.any (fun x => x.id == o.id) then b
  else { b with Orders := b.Orders ++ [o] }

/-- Modelled from the spec: `Remove` (spec section 4.1) deletes the order;
a no-op when the id is unknown. -/
def Book.remove (b : Book) (oid : String) : Book :=
  { b with Orders := b.Orders.filter (fun x => x.id != oid) }

/-- The argument record built by `HandleMessage` for `book.Match`; the
taker id and timestamp are present for a genuine match and absent for a
change-derived synthetic match. -/
structure MatchEvent where
  size : ℚ
  price : ℚ
  side : String
  makerId : String
  takerId : Option String
  time : Option String
deriving DecidableEq, Repr

/-- Modelled from the spec: `Match(event, isChangeDerived)` (spec sections
4.1 and 4.4) appends a `Trade` built from the event (a match always
produces a trade), reduces the resting maker order's size — deleting it
when the size reaches zero, a no-op on the index when the maker is unknown
— and records the size delta in the pending diff of the event's side. -/
def Book.matchEv (b : Book) (ev : MatchEvent) (isChangeDerived : Bool) : Book :=
  let t : Trade :=
    ⟨ev.price, ev.size, ev.side, ev.makerId, ev.takerId, ev.time, isChangeDerived⟩
  let b1 := { b with Trades := b.Trades ++ [t] }
  match b.Orders.find? (fun o => o.id == ev.makerId) with
  | none => b1
  | some o =>
    let b2 :=
      if o.size - ev.size ≤ 0 then
        { b1 with Orders := b1.Orders.filter (fun x => x.id != ev.makerId) }
      else
        { b1 with
          Orders := b1.Orders.map
            (fun x => if x.id == ev.makerId then { x with size := x.size - ev.size } else x) }
    if ev.side = "buy" then { b2 with DiffBid := b2.DiffBid ++ [(ev.price, -ev.size)] }
    else { b2 with DiffAsk := b2.DiffAsk ++ [(ev.price, -ev.size)] }

/-- Modelled from the spec: `Clear()` (spec section 4.1) empties the book
as part of a full resync; per the resync-convergence property (spec section
8, "after any resync … pending_diff is empty") the pending diff accumulator
is empty after the reset as well. The trade log is append-only. -/
def Book.clear (b : Book) : Book :=
  { b with Orders := [], DiffBid := [], DiffAsk := [] }

/-- Modelled from the spec: `ResetDiff()` (spec section 4.1) clears the
outstanding depth deltas; called after each persisted checkpoint. -/
def Book.resetDiff (b : Book) : Book :=
  { b with DiffBid := [], DiffAsk := [] }

/-- A record written to the embedded store (spec section 6): a packed trade
(`PackTrade`), a packed diff covering a sequence range (`PackDiff`), a
packed full snapshot of the current book (`PackSync`, keyed here by the
book sequence it captures), or the raw REST snapshot persisted by
`SyncBook` through `client.WriteDB`. -/
inductive Rec
  | trade (t : Trade)
  | diff (startSeq endSeq : ℕ) (bid ask : List (ℚ × ℚ))
  | syncSnap (seq : ℕ)
  | rawSync (m : JMap)

/-- Whether a persisted record is a trade record. -/
def isTradeRec : Rec → Bool
  | Rec.trade _ => true
  | _ => false

/-- The sequence ranges of the diff records in a written-record log, in
write order. -/
def diffRanges : List Rec → List (ℕ × ℕ)
  | [] => []
  | Rec.diff s e _ _ :: rest => (s, e) :: diffRanges rest
  | _ :: rest => diffRanges rest

/-- A failure of `FetchRawBook` (`src/unnamed/part_000`, lines 64-82): the
HTTP GET, the body read, or the JSON decode failed; in every case the
function returns the error and no data. -/
inductive FetchErr
  | httpErr
  | readErr
  | decodeErr
deriving DecidableEq, Repr

/-- An effect event of `SyncBook` (`src/unnamed/part_000`), in the order
the source performs them: the `client.WriteDB` persistence of the raw
(sync-tagged) snapshot, the `book.Clear()` call, the sequence assignment,
and each `book.Add` of a snapshot order. -/
inductive SyncEv
  | persistRaw (m : JMap)
  | clear
  | setSeq (n : ℕ)
  | insert (o : Order)

/-- Whether a sync effect event mutates the in-memory book (everything
except the raw-snapshot persistence). -/
def isMutationEv : SyncEv → Bool
  | SyncEv.persistRaw _ => false
  | _ => true

/-- The outcome of `SyncBook`: the returned error value, the resulting
book, the effect trace in execution order, and whether the run aborted in
an unchecked type assertion or slice index. -/
structure SyncOut where
  err : Option FetchErr
  book : Book
  trace : List SyncEv
  panicked : Option GoPanic

/-- The embedding of one side's loading loop in `SyncBook`
(`src/unnamed/part_000`, lines 31-58): `for i := len(xs) - 1; i >= 0; i--`
is embedded as structural recursion over the already-reversed element
list (the caller passes `xs.reverse`). Each element is asserted to be an
array, its price (index 0), size (index 1) and order id (index 2) are
asserted to be strings in that order, and the resulting order is added to
the book. On a panic the partial trace is kept and the loop stops. -/
def loadLoop (side : String) : List JValue → Book → Book × List SyncEv × Option GoPanic
  | [], b => (b, [], none)
  | it :: rest, b =>
    match asArr (some it) with
    | Except.error p => (b, [], some p)
    | Except.ok data =>
      match idxStr data 0 with
      | Except.error p => (b, [], some p)
      | Except.ok priceS =>
        match idxStr data 1 with
        | Except.error p => (b, [], some p)
        | Except.ok sizeS =>
          match idxStr data 2 with
          | Except.error p => (b, [], some p)
          | Except.ok oidS =>
            let o : Order := ⟨oidS, side, parseFloat priceS, parseFloat sizeS⟩
            let r := loadLoop side rest (b.add o)
            (r.1, SyncEv.insert o :: r.2.1, r.2.2)

/-- The per-side stage of `SyncBook`: the comma-ok assertion
`full["bids"].([]interface{})` guards the loop, so a missing key or a
non-array value silently skips the side; otherwise the downward loop runs
over the reversed element list. -/
def loadStage (side : String) (lk : Option JValue) (b : Book) :
    Book × List SyncEv × Option GoPanic :=
  match lk with
  | some (JValue.jarr bs) => loadLoop side bs.reverse b
  | _ => (b, [], none)

/-- The embedding of `SyncBook` (`src/unnamed/part_000`, lines 13-62). The
REST fetch is passed in as its result (`FetchRawBook` only performs the
transport and decode, lines 64-82). On a fetch error the error is printed
and returned with the book untouched. Otherwise, only when the decoded map
has a `sequence` key: the map is tagged with `type = "sync"`, persisted via
`client.WriteDB`, the book is cleared, the sequence is set from the
asserted float value (this assertion sits after the `Clear()` call in the
source), and the bids and then the asks — when present as arrays, checked
with comma-ok assertions — are loaded back to front. The function then
returns nil. A map without a `sequence` key is skipped entirely and the
function also returns nil. -/
def syncBook (book : Book) (fetch : Except FetchErr JMap) : SyncOut :=
  match fetch with
  | Except.error e => ⟨some e, book, [], none⟩
  | Except.ok full =>
    match lookupJ full "sequence" with
    | none => ⟨none, book, [], none⟩
    | some seqv =>
      let full2 := setKey full "type" (JValue.jstr "sync")
      let b1 := book.clear
      match seqv with
      | JValue.jnum q =>
        let n := ratToUint q
        let b2 := { b1 with Sequence := n }
        let rb := loadStage "buy" (lookupJ full2 "bids") b2
        match rb.2.2 with
        | some p =>
          ⟨none, rb.1,
            SyncEv.persistRaw full2 :: SyncEv.clear :: SyncEv.setSeq n :: rb.2.1, some p⟩
        | none =>
          let ra := loadStage "sell" (lookupJ full2 "asks") rb.1
          ⟨none, ra.1,
            SyncEv.persistRaw full2 :: SyncEv.clear :: SyncEv.setSeq n ::
              (rb.2.1 ++ ra.2.1), ra.2.2⟩
      | _ =>
        ⟨none, b1, [SyncEv.persistRaw full2, SyncEv.clear], some GoPanic.typeAssert⟩

/-- The lightweight message header (`client.go`, lines 87-91): type,
sequence, product id, decoded independently of the payload shape. -/
structure PacketHeader where
  type : String
  sequence : ℕ
  productID : String
deriving DecidableEq, Repr

/-- The embedding of the event-interpretation switch of `HandleMessage`
(`client.go`, lines 101-149): `received` and unknown types have no effect;
`open` adds an order from the asserted `price`, `remaining_size`,
`order_id` and `side` fields; `done` removes the asserted `order_id`;
`match` calls `Match` with the asserted fields and picks up the trade just
appended to the book's trade log (the local `trade` variable); `change`
first asserts `order_id`, is a no-op when that id is not in the book's
order index, and otherwise calls `Match` with size `old_size - new_size`,
the event's price and side, the changed order as maker and the
change-derived flag set — without setting the local `trade` variable.
Returns the mutated book and the value of the local `trade` variable, or
the panic raised by an unchecked assertion. -/
def applyEvent (b : Book) (ty : String) (data : JMap) :
    Except GoPanic (Book × Option Trade) :=
  if ty = "received" then Except.ok (b, none)
  else if ty = "open" then
    match asString (lookupJ data "price") with
    | Except.error p => Except.error p
    | Except.ok priceS =>
      match asString (lookupJ data "remaining_size") with
      | Except.error p => Except.error p
      | Except.ok sizeS =>
        match asString (lookupJ data "order_id") with
        | Except.error p => Except.error p
        | Except.ok oidS =>
          match asString (lookupJ data "side") with
          | Except.error p => Except.error p
          | Except.ok sideS =>
            Except.ok (b.add ⟨oidS, sideS, parseFloat priceS, parseFloat sizeS⟩, none)
  else if ty = "done" then
    match asString (lookupJ data "order_id") with
    | Except.error p => Except.error p
    | Except.ok oidS => Except.ok (b.remove oidS, none)
  else if ty = "match" then
    match asString (lookupJ data "price") with
    | Except.error p => Except.error p
    | Except.ok priceS =>
      match asString (lookupJ data "size") with
      | Except.error p => Except.error p
      | Except.ok sizeS =>
        match asString (lookupJ data "side") with
        | Except.error p => Except.error p
        | Except.ok sideS =>
          match asString (lookupJ data "maker_order_id") with
          | Except.error p => Except.error p
          | Except.ok makerS =>
            match asString (lookupJ data "taker_order_id") with
            | Except.error p => Except.error p
            | Except.ok takerS =>
              match asString (lookupJ data "time") with
              | Except.error p => Except.error p
              | Except.ok timeS =>
                let b2 := b.matchEv
                  ⟨parseFloat sizeS, parseFloat priceS, sideS, makerS,
                    some takerS, some timeS⟩ false
                match b2.Trades.getLast? with
                | some t => Except.ok (b2, some t)
                | none => Except.error GoPanic.indexRange
  else if ty = "change" then
    match asString (lookupJ data "order_id") with
    | Except.error p => Except.error p
    | Except.ok oidS =>
      if b.Orders.any (fun o => o.id == oidS) = false then Except.ok (b, none)
      else
        match asString (lookupJ data "old_size") with
        | Except.error p => Except.error p
        | Except.ok oldS =>
          match asString (lookupJ data "new_size") with
          | Except.error p => Except.error p
          | Except.ok newS =>
            match asString (lookupJ data "price") with
            | Except.error p => Except.error p
            | Except.ok priceS =>
              match asString (lookupJ data "side") with
              | Except.error p => Except.error p
              | Except.ok sideS =>
                let b2 := b.matchEv
                  ⟨parseFloat oldS - parseFloat newS, parseFloat priceS, sideS,
                    oidS, none, none⟩ true
                Except.ok (b2, none)
  else Except.ok (b, none)

/-- The embedding of `WriteDiff` (`client.go`, lines 169-177): only when
the book's pending diff has a non-empty bid or ask delta list, a diff
record `PackDiff(batch.LastDiffSeq, book.Sequence, diff)` is written, the
book's pending diff is reset, and `batch.LastDiffSeq` is advanced to
`book.Sequence + 1`; otherwise nothing changes. Returns the updated book,
the updated `LastDiffSeq`, and the record written, if any. -/
def writeDiff (b : Book) (lastDiffSeq : ℕ) : Book × ℕ × Option Rec :=
  if b.DiffBid.length ≠ 0 ∨ b.DiffAsk.length ≠ 0 then
    (b.resetDiff, b.Sequence + 1, some (Rec.diff lastDiffSeq b.Sequence b.DiffBid b.DiffAsk))
  else (b, lastDiffSeq, none)

/-- The embedding of `WriteSync` (`client.go`, lines 179-183): a full
snapshot record `PackSync(book)` is written unconditionally, the pending
diff is reset, and `batch.LastDiffSeq` is advanced to `book.Sequence + 1`. -/
def writeSync (b : Book) (lastDiffSeq : ℕ) : Book × ℕ × Option Rec :=
  (b.resetDiff, b.Sequence + 1, some (Rec.syncSnap b.Sequence))

/-- The embedding of the persistence block of `HandleMessage` (`client.go`,
lines 151-166). Only when the store is enabled: a produced trade is written
first, immediately; then `batch.NextSync(now)` (modelled from the spec as a
time-window decision, section 4.3, and passed in as an oracle boolean)
triggers `WriteSync`, else `batch.NextDiff(now)` triggers `WriteDiff`.
Returns the updated book, `LastDiffSeq`, and the records written in
order. -/
def persistPhase (b : Book) (lastDiffSeq : ℕ) (trade : Option Trade)
    (nextSync nextDiff dbEnabled : Bool) : Book × ℕ × List Rec :=
  if dbEnabled then
    let tr : List Rec := match trade with
      | some t => [Rec.trade t]
      | none => []
    if nextSync then
      let r := writeSync b lastDiffSeq
      (r.1, r.2.1, tr ++ r.2.2.toList)
    else if nextDiff then
      let r := writeDiff b lastDiffSeq
      (r.1, r.2.1, tr ++ r.2.2.toList)
    else (b, lastDiffSeq, tr)
  else (b, lastDiffSeq, [])

/-- The embedding of `HandleMessage` (`client.go`, lines 93-167) for one
book. `body` is the result of unmarshalling the message bytes into
`map[string]interface{}`: a failed unmarshal is only logged and leaves the
map nil, which this embedding renders as proceeding with the empty map.
The event switch runs first, then the persistence block. Returns the
updated `(book, LastDiffSeq, written records)` together with the panic, if
the switch aborted (in which case nothing was written). -/
def handleMessage (b : Book) (lastDiffSeq : ℕ) (ty : String) (body : Option JMap)
    (nextSync nextDiff dbEnabled : Bool) : (Book × ℕ × List Rec) × Option GoPanic :=
  let data := body.getD []
  match applyEvent b ty data with
  | Except.error p => ((b, lastDiffSeq, []), some p)
  | Except.ok (b2, tr) => (persistPhase b2 lastDiffSeq tr nextSync nextDiff dbEnabled, none)

/-- The per-product slice of `Client` state that the read loop touches for
one message (`client.go`, lines 18-29): the product's book, the product's
`util.BookBatchWrite.LastDiffSeq` counter, the log of records written to
the product's store bucket so far (in write order), and the `dbEnabled`
flag. A fresh product starts with a new book, `LastDiffSeq = 0` (the Go
zero value of the field, `client.go` line 65) and nothing written. -/
structure ClientState where
  book : Book
  lastDiffSeq : ℕ
  records : List Rec
  dbEnabled : Bool

/-- How the read loop disposed of one inbound message (`client.go`, lines
223-241): discarded with a resync invoked, silently ignored as stale, or
applied to the book. -/
inductive MsgAction
  | discardedResync
  | ignoredStale
  | applied
deriving DecidableEq, Repr

/-- One inbound message for a known product, together with the oracle
inputs the environment supplies while it is processed: the parsed header,
the body unmarshal result (`none` when the unmarshal fails), the result the
REST snapshot fetch would return if `SyncBook` ran now, and the values the
time-window tests `NextSync`/`NextDiff` would return now (modelled from the
spec, section 4.3). -/
structure StepInput where
  header : PacketHeader
  body : Option JMap
  snapshot : Except FetchErr JMap
  nextSync : Bool
  nextDiff : Bool

/-- Maps a `SyncBook` effect event to the store record it writes:
`client.WriteDB` persists the raw snapshot (modelled from the spec, section
4.2 step 2; `WriteDB`'s own source is not in this snapshot); the in-memory
mutations write nothing. -/
def recOfSyncEv : SyncEv → Option Rec
  | SyncEv.persistRaw m => some (Rec.rawSync m)
  | _ => none

/-- The resync arm of the read loop: run `SyncBook` against the current
book, append the raw-snapshot record it persisted (when the store is
enabled), and report the message as discarded. A panic inside `SyncBook`
is surfaced; records written before the panic are kept. -/
def resyncStep (s : ClientState) (snap : Except FetchErr JMap) :
    ClientState × MsgAction × Option GoPanic :=
  let out := syncBook s.book snap
  ({ s with
      book := out.book,
      records := s.records ++ (if s.dbEnabled then out.trace.filterMap recOfSyncEv else []) },
   MsgAction.discardedResync, out.panicked)

/-- The embedding of one iteration of the read loop for a known product
(`client.go`, lines 223-241): a never-synced book (`Sequence == 0`)
triggers `SyncBook` and the message is discarded; a stale sequence
(`header.Sequence <= book.Sequence`) is silently ignored; a gap
(`header.Sequence != book.Sequence + 1`) triggers `SyncBook` and the
message is discarded; otherwise `book.Sequence` is set to
`header.Sequence` and the message is handed to `HandleMessage`. -/
def runStep (s : ClientState) (i : StepInput) : ClientState × MsgAction × Option GoPanic :=
  if s.book.Sequence = 0 then resyncStep s i.snapshot
  else if i.header.sequence ≤ s.book.Sequence then (s, MsgAction.ignoredStale, none)
  else if i.header.sequence ≠ s.book.Sequence + 1 then resyncStep s i.snapshot
  else
    let b1 := { s.book with Sequence := i.header.sequence }
    let r := handleMessage b1 s.lastDiffSeq i.header.type i.body i.nextSync i.nextDiff
      s.dbEnabled
    ({ s with book := r.1.1, lastDiffSeq := r.1.2.1, records := s.records ++ r.1.2.2 },
     MsgAction.applied, r.2)

/-- Runs the read loop over a list of inbound messages, stopping at the
state in which a Go panic aborts the process (the records written before
the abort are retained in that state). -/
def runList (s : ClientState) : List StepInput → ClientState
  | [] => s
  | i :: rest =>
    let r := runStep s i
    match r.2.2 with
    | some _ => r.1
    | none => runList r.1 rest

/-- The embedding of `Connect` (`client.go`, lines 70-85), with the dial
and the subscribe-frame write passed in as their outcomes: the dial error,
whether the socket field was set, and whether the subscribe message was
sent. -/
structure ConnectOutcome where
  err : Option FetchErr
  socketSet : Bool
  subscribeSent : Bool
deriving DecidableEq, Repr

/-- `Connect` (`client.go`, lines 70-85): a dial failure is returned and
nothing else happens; on a successful dial the socket is stored, the
subscribe message is written — its error assigned to `err` but never
inspected — and the function returns nil regardless of `writeOutcome`. -/
def connect (dial : Except FetchErr Unit) (writeOutcome : Except FetchErr Unit) :
    ConnectOutcome :=
  match dial with
  | Except.error e => ⟨some e, false, false⟩
  | Except.ok _ => ⟨none, true, true⟩

/-- The "most recent checkpoint" tracking used to state diff-record
contiguity: after a diff record the carry holds that diff's end sequence;
after a full `PackSync` snapshot record the carry is dropped (that write
advanced `LastDiffSeq` past the diff chain); trade records and the raw
resync snapshot (which does not touch `LastDiffSeq`) leave it unchanged. -/
def nextCarry (c : Option ℕ) : Rec → Option ℕ
  | Rec.diff _ e _ _ => some e
  | Rec.syncSnap _ => none
  | _ => c

/-- Folds `nextCarry` over a record log. -/
def carryAfter (c : Option ℕ) : List Rec → Option ℕ
  | [] => c
  | r :: rest => carryAfter (nextCarry c r) rest

/-- Checks a record log for the amended diff-batching bounds: every diff
record has `start ≤ end`, and a diff record that follows an earlier diff
record with no full snapshot write in between starts exactly one past that
earlier record's end. -/
def chainOK (c : Option ℕ) : List Rec → Bool
  | [] => true
  | r :: rest =>
    (match r with
     | Rec.diff s e _ _ =>
       decide (s ≤ e) &&
       (match c with
        | some e0 => decide (s = e0 + 1)
        | none => true)
     | _ => true) && chainOK (nextCarry c r) rest

/-- Bounds and pairwise contiguity of a list of diff sequence ranges. -/
def diffPairsOK : List (ℕ × ℕ) → Bool
  | [] => true
  | [(s, e)] => decide (s ≤ e)
  | (s, e) :: (s2, e2) :: rest =>
    decide (s ≤ e) && decide (s2 = e + 1) && diffPairsOK ((s2, e2) :: rest)

/-- The diff-batching bounds exactly as the claim states them: every diff
record has `start ≤ end` and every two consecutive diff records are
contiguous, with no exemption for an intervening snapshot write. Stated
from the claim's words, to be compared with the behavior of the embedded
code. -/
def specDiffContiguity (recs : List Rec) : Bool :=
  diffPairsOK (diffRanges recs)

/-- Whether the book's pending diff would cause `WriteDiff` to write. -/
def pendingNonempty (b : Book) : Bool :=
  !(b.DiffBid.isEmpty && b.DiffAsk.isEmpty)

/-- The batching invariant of a per-product client state: the record log
satisfies the amended diff bounds; `LastDiffSeq` is at most one past the
book sequence; when a diff is pending, `LastDiffSeq` is at most the book
sequence; and when the most recent checkpoint in the log is a diff record,
`LastDiffSeq` sits exactly one past its end. -/
def GoodStateB (s : ClientState) : Bool :=
  chainOK none s.records
  && decide (s.lastDiffSeq ≤ s.book.Sequence + 1)
  && (if pendingNonempty s.book then decide (s.lastDiffSeq ≤ s.book.Sequence) else true)
  && (match carryAfter none s.records with
      | some e0 => decide (s.lastDiffSeq = e0 + 1)
      | none => true)

/-- The upstream-monotonicity assumption on one oracle input: the book
`SyncBook` would produce from this input's snapshot does not regress the
sequence number (feed and snapshot sequences are monotone per product,
spec glossary). Trivially true when the fetch fails or is skipped, since
the book is then unchanged. -/
def goodInputB (s : ClientState) (i : StepInput) : Bool :=
  decide (s.book.Sequence ≤ (syncBook s.book i.snapshot).book.Sequence)

/-- `goodInputB` holding along the whole execution of an input list. -/
def runGoodB (s : ClientState) : List StepInput → Bool
  | [] => true
  | i :: rest =>
    goodInputB s i &&
    (let r := runStep s i
     match r.2.2 with
     | some _ => true
     | none => runGoodB r.1 rest)

/-- A level-3 snapshot entry `[price, size, order_id]` as decoded JSON. -/
def entryJ : String × String × String → JValue
  | (p, sz, oid) => JValue.jarr [JValue.jstr p, JValue.jstr sz, JValue.jstr oid]

/-- A well-shaped decoded snapshot, `{sequence, bids, asks}` (spec section
6), with the per-order entries given as string triples. -/
def mkSnapshot (q : ℚ) (bids asks : List (String × String × String)) : JMap :=
  [("sequence", JValue.jnum q),
   ("bids", JValue.jarr (bids.map entryJ)),
   ("asks", JValue.jarr (asks.map entryJ))]

/-- The order `SyncBook` builds from one snapshot entry for one side. -/
def snapOrder (side : String) : String × String × String → Order
  | (p, sz, oid) => ⟨oid, side, parseFloat p, parseFloat sz⟩

/-- A well-shaped decoded `match` message body. -/
def mkMatchData (pr sz sd mk tk tm : String) : JMap :=
  [("price", JValue.jstr pr), ("size", JValue.jstr sz), ("side", JValue.jstr sd),
   ("maker_order_id", JValue.jstr mk), ("taker_order_id", JValue.jstr tk),
   ("time", JValue.jstr tm)]

/-- A well-shaped decoded `change` message body. -/
def mkChangeData (oid os nsz pr sd : String) : JMap :=
  [("order_id", JValue.jstr oid), ("old_size", JValue.jstr os),
   ("new_size", JValue.jstr nsz), ("price", JValue.jstr pr), ("side", JValue.jstr sd)]

/-- The per-product client state right after `AddProduct`: fresh book,
zero `LastDiffSeq`, empty store log, store enabled. -/
def initialState (name : String) : ClientState := ⟨Book.new name, 0, [], true⟩

/-- A concrete snapshot: sequence 10, one resting bid order `A` of size
100 at price 10, no asks. -/
def demoSnapshot : JMap := mkSnapshot 10 [("10", "100", "A")] []

/-- A concrete `match` body against maker `A`, size 1 at price 10. -/
def demoMatchBody (tm : String) : JMap := mkMatchData "10" "1" "buy" "A" "T" tm

/-- A concrete message sequence for the `BTC-USD` read loop: a cold-start
resync to sequence 10, then three applied matches at sequences 11, 12 and
13, with the diff timer firing at 11 and 13 and the sync timer at 12. -/
def demoInputs : List StepInput :=
  [⟨⟨"match", 11, "BTC-USD"⟩, some (demoMatchBody "t0"), Except.ok demoSnapshot, false, false⟩,
   ⟨⟨"match", 11, "BTC-USD"⟩, some (demoMatchBody "t1"), Except.error FetchErr.httpErr, false, true⟩,
   ⟨⟨"match", 12, "BTC-USD"⟩, some (demoMatchBody "t2"), Except.error FetchErr.httpErr, true, false⟩,
   ⟨⟨"match", 13, "BTC-USD"⟩, some (demoMatchBody "t3"), Except.error FetchErr.httpErr, false, true⟩]

/-- A concrete book: synced at sequence 7, one resting buy order `B` of
size 5 at price 10, nothing pending, no trades yet. -/
def demoBook : Book := ⟨"BTC-USD", 7, [⟨"B", "buy", 10, 5⟩], [], [], []⟩

/-- A concrete book with a pending bid delta awaiting a checkpoint. -/
def demoBookPending : Book := ⟨"BTC-USD", 7, [⟨"B", "buy", 10, 5⟩], [], [(10, -1)], []⟩

/-- A record that is neither a diff nor a full snapshot: it neither
constrains nor alters the diff chain. -/
def neutralRec : Rec → Bool
  | Rec.diff _ _ _ _ => false
  | Rec.syncSnap _ => false
  | _ => true

/-- `Add` never touches the book's sequence number. -/
theorem Book.add_Sequence (b : Book) (o : Order) : (b.add o).Sequence = b.Sequence := by
  unfold Book.add
  split <;> rfl

/-- `Remove` never touches the book's sequence number. -/
theorem Book.remove_Sequence (b : Book) (oid : String) :
    (b.remove oid).Sequence = b.Sequence := rfl

/-- `Match` never touches the book's sequence number. -/
theorem Book.matchEv_Sequence (b : Book) (ev : MatchEvent) (f : Bool) :
    (b.matchEv ev f).Sequence = b.Sequence := by
  unfold Book.matchEv
  split <;> dsimp only <;> split <;> split <;> rfl

/-- `ResetDiff` never touches the book's sequence number. -/
theorem Book.resetDiff_Sequence (b : Book) : b.resetDiff.Sequence = b.Sequence := rfl

/-- `Match` appends exactly the trade built from its event to the book's
trade log. -/
theorem Book.matchEv_Trades (b : Book) (ev : MatchEvent) (f : Bool) :
    (b.matchEv ev f).Trades =
      b.Trades ++ [⟨ev.price, ev.size, ev.side, ev.makerId, ev.takerId, ev.time, f⟩] := by
  unfold Book.matchEv
  split <;> dsimp only <;> split <;> split <;> rfl

/-- The event switch never touches the book's sequence number. -/
theorem applyEvent_Sequence (b : Book) (ty : String) (data : JMap) (b2 : Book)
    (tr : Option Trade) (h : applyEvent b ty data = Except.ok (b2, tr)) :
    b2.Sequence = b.Sequence := by
  unfold applyEvent at h
  repeat' first
    | (split at h)
    | (dsimp only at h)
  all_goals simp only [Except.ok.injEq, Prod.mk.injEq, reduceCtorEq] at h
  all_goals obtain ⟨rfl, rfl⟩ := h.symm
  all_goals simp [Book.add_Sequence, Book.remove_Sequence, Book.matchEv_Sequence]

/-- Only the `match` arm of the event switch can set the local `trade`
variable. -/
theorem applyEvent_trade_none (b : Book) (ty : String) (data : JMap) (b2 : Book)
    (tr : Option Trade) (hty : ty ≠ "match")
    (h : applyEvent b ty data = Except.ok (b2, tr)) : tr = none := by
  unfold applyEvent at h
  repeat' first
    | (split at h)
    | (dsimp only at h)
  all_goals try (exact absurd (by assumption) hty)
  all_goals simp only [Except.ok.injEq, Prod.mk.injEq, reduceCtorEq] at h
  all_goals obtain ⟨rfl, rfl⟩ := h.symm
  all_goals rfl

/-- The persistence block never touches the book's sequence number. -/
theorem persistPhase_Sequence (b : Book) (lds : ℕ) (tr : Option Trade)
    (ns nd dbE : Bool) : (persistPhase b lds tr ns nd dbE).1.Sequence = b.Sequence := by
  unfold persistPhase writeSync writeDiff
  repeat' split
  all_goals simp [Book.resetDiff_Sequence]

/-- `HandleMessage` never touches the book's sequence number (the read
loop alone advances it). -/
theorem handleMessage_Sequence (b : Book) (lds : ℕ) (ty : String) (body : Option JMap)
    (ns nd dbE : Bool) :
    ((handleMessage b lds ty body ns nd dbE).1.1).Sequence = b.Sequence := by
  unfold handleMessage
  dsimp only
  split
  · rfl
  · rename_i b2 tr heq
    dsimp only
    rw [persistPhase_Sequence]
    exact applyEvent_Sequence _ _ _ _ _ heq

/-- `Add` touches only the order list. -/
theorem Book.add_fields (b : Book) (o : Order) :
    (b.add o).DiffBid = b.DiffBid ∧ (b.add o).DiffAsk = b.DiffAsk := by
  unfold Book.add
  split <;> exact ⟨rfl, rfl⟩

/-- `carryAfter` distributes over list append. -/
theorem carryAfter_append (c : Option ℕ) (l1 l2 : List Rec) :
    carryAfter c (l1 ++ l2) = carryAfter (carryAfter c l1) l2 := by
  induction l1 generalizing c with
  | nil => rfl
  | cons r rest ih => simp [carryAfter, ih]

/-- `chainOK` splits over list append through the carry. -/
theorem chainOK_append (c : Option ℕ) (l1 l2 : List Rec) :
    chainOK c (l1 ++ l2) = (chainOK c l1 && chainOK (carryAfter c l1) l2) := by
  induction l1 generalizing c with
  | nil => simp [chainOK, carryAfter]
  | cons r rest ih =>
    simp only [List.cons_append, chainOK, carryAfter, List.append_eq, ih, Bool.and_assoc]

/-- Appending chain-neutral records keeps `chainOK` and the carry. -/
theorem neutral_chain (l : List Rec) (h : ∀ r ∈ l, neutralRec r = true) (c : Option ℕ) :
    chainOK c l = true ∧ carryAfter c l = c := by
  induction l with
  | nil => exact ⟨rfl, rfl⟩
  | cons r rest ih =>
    have hr : neutralRec r = true := h r (List.mem_cons_self r rest)
    have hrest : ∀ x ∈ rest, neutralRec x = true :=
      fun x hx => h x (List.mem_cons_of_mem r hx)
    cases r with
    | trade t =>
      exact ⟨by simpa [chainOK, nextCarry] using (ih hrest).1,
        by simpa [carryAfter, nextCarry] using (ih hrest).2⟩
    | rawSync m =>
      exact ⟨by simpa [chainOK, nextCarry] using (ih hrest).1,
        by simpa [carryAfter, nextCarry] using (ih hrest).2⟩
    | diff s e bid ask => simp [neutralRec] at hr
    | syncSnap q => simp [neutralRec] at hr

/-- Every record a `SyncBook` trace writes to the store is the raw
snapshot, which is chain-neutral. -/
theorem recOfSyncEv_neutral (ev : SyncEv) (r : Rec) (h : recOfSyncEv ev = some r) :
    neutralRec r = true := by
  cases ev <;> simp [recOfSyncEv] at h <;> try exact absurd h (by simp)
  subst h
  rfl

/-- The loading loop of `SyncBook` touches neither pending diff side nor
the sequence number. -/
theorem loadLoop_fields (side : String) (items : List JValue) (b : Book) :
    (loadLoop side items b).1.DiffBid = b.DiffBid
    ∧ (loadLoop side items b).1.DiffAsk = b.DiffAsk
    ∧ (loadLoop side items b).1.Sequence = b.Sequence := by
  induction items generalizing b with
  | nil => exact ⟨rfl, rfl, rfl⟩
  | cons it rest ih =>
    unfold loadLoop
    repeat' split
    all_goals try exact ⟨rfl, rfl, rfl⟩
    dsimp only
    constructor
    · rw [(ih _).1, (Book.add_fields _ _).1]
    constructor
    · rw [(ih _).2.1, (Book.add_fields _ _).2]
    · rw [(ih _).2.2, Book.add_Sequence]

/-- A side-loading stage touches neither pending diff side nor the
sequence number. -/
theorem loadStage_fields (side : String) (lk : Option JValue) (b : Book) :
    (loadStage side lk b).1.DiffBid = b.DiffBid
    ∧ (loadStage side lk b).1.DiffAsk = b.DiffAsk
    ∧ (loadStage side lk b).1.Sequence = b.Sequence := by
  unfold loadStage
  split
  · exact loadLoop_fields _ _ _
  · exact ⟨rfl, rfl, rfl⟩

/-- After `SyncBook`, the book is either untouched (fetch error, or a
snapshot without a `sequence` key) or carries an empty pending diff (the
clear-and-reload path). -/
theorem syncBook_book_cases (b : Book) (f : Except FetchErr JMap) :
    (syncBook b f).book = b
    ∨ ((syncBook b f).book.DiffBid = [] ∧ (syncBook b f).book.DiffAsk = []) := by
  unfold syncBook
  cases f with
  | error e => exact Or.inl rfl
  | ok full =>
    dsimp only
    cases hseq : lookupJ full "sequence" with
    | none => simp only [hseq]; exact Or.inl trivial
    | some seqv =>
      simp only [hseq]
      cases seqv with
      | jstr s => exact Or.inr ⟨rfl, rfl⟩
      | jarr a => exact Or.inr ⟨rfl, rfl⟩
      | jnum q =>
        right
        dsimp only
        split
        · dsimp only
          constructor
          · rw [(loadStage_fields _ _ _).1]; simp [Book.clear]
          · rw [(loadStage_fields _ _ _).2.1]; simp [Book.clear]
        · dsimp only
          constructor
          · rw [(loadStage_fields _ _ _).1, (loadStage_fields _ _ _).1]; simp [Book.clear]
          · rw [(loadStage_fields _ _ _).2.1, (loadStage_fields _ _ _).2.1]; simp [Book.clear]

/-- One persistence block preserves the batching invariant: given that
`LastDiffSeq` is at most the (already advanced) book sequence and that the
carry agrees with `LastDiffSeq`, the records written chain correctly, the
new `LastDiffSeq` stays within bounds, and the new carry agrees with the
new `LastDiffSeq`. -/
theorem persist_good (b : Book) (lds : ℕ) (tr : Option Trade) (ns nd dbE : Bool)
    (c0 : Option ℕ) (h2 : lds ≤ b.Sequence)
    (h4 : ∀ e0, c0 = some e0 → lds = e0 + 1) :
    chainOK c0 (persistPhase b lds tr ns nd dbE).2.2 = true
    ∧ (persistPhase b lds tr ns nd dbE).2.1 ≤ b.Sequence + 1
    ∧ (pendingNonempty (persistPhase b lds tr ns nd dbE).1 = true →
        (persistPhase b lds tr ns nd dbE).2.1 ≤ b.Sequence)
    ∧ (∀ e0, carryAfter c0 (persistPhase b lds tr ns nd dbE).2.2 = some e0 →
        (persistPhase b lds tr ns nd dbE).2.1 = e0 + 1) := by
  rcases c0 with _ | e0
  · unfold persistPhase writeSync writeDiff
    cases dbE <;> cases ns <;> cases nd <;> cases tr <;> (repeat' split) <;>
      simp_all [chainOK, carryAfter, nextCarry, pendingNonempty, Book.resetDiff] <;>
      omega
  · have h5 : lds = e0 + 1 := h4 e0 rfl
    unfold persistPhase writeSync writeDiff
    cases dbE <;> cases ns <;> cases nd <;> cases tr <;> (repeat' split) <;>
      simp_all [chainOK, carryAfter, nextCarry, pendingNonempty, Book.resetDiff] <;>
      omega

/-- Unfolds the batching invariant into its four propositional parts. -/
theorem goodState_iff (s : ClientState) :
    GoodStateB s = true ↔
      (chainOK none s.records = true
       ∧ s.lastDiffSeq ≤ s.book.Sequence + 1
       ∧ (pendingNonempty s.book = true → s.lastDiffSeq ≤ s.book.Sequence)
       ∧ (∀ e0, carryAfter none s.records = some e0 → s.lastDiffSeq = e0 + 1)) := by
  unfold GoodStateB
  cases hc : carryAfter none s.records <;> cases hp : pendingNonempty s.book <;>
    simp [hp, hc, Bool.and_eq_true, decide_eq_true_eq, and_assoc]

/-- A book with both pending sides empty has no pending diff. -/
theorem pendingNonempty_false (b : Book) (h1 : b.DiffBid = []) (h2 : b.DiffAsk = []) :
    pendingNonempty b = false := by
  simp [pendingNonempty, h1, h2]

/-- The records a resync appends to the store log are chain-neutral. -/
theorem resync_records_neutral (dbE : Bool) (tr : List SyncEv) :
    ∀ r ∈ (if dbE then tr.filterMap recOfSyncEv else []), neutralRec r = true := by
  intro r hr
  cases dbE with
  | false => simp at hr
  | true =>
    simp only [if_pos] at hr
    obtain ⟨ev, _, heq⟩ := List.mem_filterMap.mp hr
    exact recOfSyncEv_neutral ev r heq

/-- A resync step preserves the batching invariant, given that the
snapshot does not regress the sequence number. -/
theorem resync_good (s : ClientState) (snap : Except FetchErr JMap)
    (hg : GoodStateB s = true)
    (hin : s.book.Sequence ≤ (syncBook s.book snap).book.Sequence) :
    GoodStateB (resyncStep s snap).1 = true := by
  rw [goodState_iff] at hg
  obtain ⟨hchain, hlds, hpend, hcarry⟩ := hg
  rw [goodState_iff]
  unfold resyncStep
  dsimp only
  have hnl := resync_records_neutral s.dbEnabled (syncBook s.book snap).trace
  have hneu := neutral_chain _ hnl (carryAfter none s.records)
  refine ⟨?_, ?_, ?_, ?_⟩
  · rw [chainOK_append, hchain, hneu.1]
    rfl
  · omega
  · intro hp
    rcases syncBook_book_cases s.book snap with hb | ⟨hd1, hd2⟩
    · rw [hb] at hp ⊢
      exact hpend hp
    · rw [pendingNonempty_false _ hd1 hd2] at hp
      cases hp
  · intro e0 he0
    rw [carryAfter_append, hneu.2] at he0
    exact hcarry e0 he0

/-- `HandleMessage` preserves the batching invariant relative to any carry
that agrees with `LastDiffSeq`, and never touches the sequence number. -/
theorem handleMessage_good (b : Book) (lds : ℕ) (ty : String) (body : Option JMap)
    (ns nd dbE : Bool) (c0 : Option ℕ)
    (h2 : lds ≤ b.Sequence) (h4 : ∀ e0, c0 = some e0 → lds = e0 + 1) :
    chainOK c0 (handleMessage b lds ty body ns nd dbE).1.2.2 = true
    ∧ (handleMessage b lds ty body ns nd dbE).1.2.1 ≤ b.Sequence + 1
    ∧ (pendingNonempty (handleMessage b lds ty body ns nd dbE).1.1 = true →
        (handleMessage b lds ty body ns nd dbE).1.2.1 ≤ b.Sequence)
    ∧ (∀ e0, carryAfter c0 (handleMessage b lds ty body ns nd dbE).1.2.2 = some e0 →
        (handleMessage b lds ty body ns nd dbE).1.2.1 = e0 + 1)
    ∧ (handleMessage b lds ty body ns nd dbE).1.1.Sequence = b.Sequence := by
  unfold handleMessage
  dsimp only
  cases happ : applyEvent b ty (body.getD []) with
  | error p =>
    dsimp only
    exact ⟨rfl, Nat.le_succ_of_le h2, fun _ => h2, fun e0 he0 => h4 e0 he0, rfl⟩
  | ok bt =>
    obtain ⟨b2, tr⟩ := bt
    dsimp only
    have hseq2 : b2.Sequence = b.Sequence := applyEvent_Sequence _ _ _ _ _ happ
    have hpg := persist_good b2 lds tr ns nd dbE c0 (by rw [hseq2]; exact h2) h4
    rw [hseq2] at hpg
    exact ⟨hpg.1, hpg.2.1, hpg.2.2.1, hpg.2.2.2,
      (persistPhase_Sequence b2 lds tr ns nd dbE).trans hseq2⟩

/-- Sequence reassignment does not change whether a diff is pending. -/
theorem pendingNonempty_setSeq (b : Book) (n : ℕ) :
    pendingNonempty { b with Sequence := n } = pendingNonempty b := rfl

/-- One read-loop step preserves the batching invariant, given that a
resync would not regress the sequence number. -/
theorem step_good (s : ClientState) (i : StepInput)
    (hg : GoodStateB s = true) (hin : goodInputB s i = true) :
    GoodStateB (runStep s i).1 = true := by
  have hin2 : s.book.Sequence ≤ (syncBook s.book i.snapshot).book.Sequence := by
    simpa [goodInputB, decide_eq_true_eq] using hin
  unfold runStep
  split
  · exact resync_good s i.snapshot hg hin2
  · split
    · exact hg
    · split
      · exact resync_good s i.snapshot hg hin2
      · rename_i h0 hle hne
        have hs : i.header.sequence = s.book.Sequence + 1 := by omega
        rw [goodState_iff] at hg
        obtain ⟨hchain, hlds, hpend, hcarry⟩ := hg
        dsimp only
        have hm := handleMessage_good { s.book with Sequence := i.header.sequence }
          s.lastDiffSeq i.header.type i.body i.nextSync i.nextDiff s.dbEnabled
          (carryAfter none s.records) (by dsimp only; omega) hcarry
        rw [goodState_iff]
        dsimp only at hm ⊢
        refine ⟨?_, ?_, ?_, ?_⟩
        · rw [chainOK_append, hchain, hm.1]
          rfl
        · rw [hm.2.2.2.2]
          have := hm.2.1
          omega
        · intro hp
          rw [hm.2.2.2.2]
          exact hm.2.2.1 hp
        · intro e0 he0
          rw [carryAfter_append] at he0
          exact hm.2.2.2.1 e0 he0

/-- C6 (amended): diff-batching bounds along any run of the read loop.
Starting from a state satisfying the batching invariant (in particular the
fresh per-product state) and feeding any message/oracle sequence whose
resyncs never regress the sequence number, the product's written record
log satisfies: every diff record covers a range with `start ≤ end`, and
any diff record that follows an earlier diff record with no full
`PackSync` snapshot write in between starts exactly one past that earlier
record's end (so diff records are contiguous across trades, raw resync
snapshots, and resyncs — only a `NextSync`-triggered snapshot write resets
the chain). -/
theorem diff_chain_bounds (s : ClientState) (inputs : List StepInput)
    (h0 : GoodStateB s = true) (hg : runGoodB s inputs = true) :
    chainOK none (runList s inputs).records = true := by
  induction inputs generalizing s with
  | nil => exact ((goodState_iff s).mp h0).1
  | cons i rest ih =>
    unfold runGoodB at hg
    rw [Bool.and_eq_true] at hg
    obtain ⟨hgi, hrest⟩ := hg
    unfold runList
    dsimp only at hrest ⊢
    have hstep := step_good s i h0 hgi
    cases hp : (runStep s i).2.2 with
    | some p =>
      simp only [hp] at hrest ⊢
      exact ((goodState_iff _).mp hstep).1
    | none =>
      simp only [hp] at hrest ⊢
      exact ih (runStep s i).1 hstep hrest

/-- C6 (counterexample): the claim "every two consecutive diff records for
the same product are contiguous" is false as stated. Running the read loop
from a fresh `BTC-USD` state over a cold-start resync (to sequence 10) and
three applied matches produces diff records `[0, 11]` and `[13, 13]`: the
`NextSync`-triggered snapshot write at sequence 12 advanced `LastDiffSeq`
past the chain, so the later diff starts at 13, not at the earlier diff's
end plus one (12). -/
theorem diff_contiguity_broken_by_sync_write :
    diffRanges (runList (initialState "BTC-USD") demoInputs).records = [(0, 11), (13, 13)]
    ∧ specDiffContiguity (runList (initialState "BTC-USD") demoInputs).records = false := by
  with_unfolding_all decide

/-- C6 (witness): the amended diff-chain bounds applied to the concrete
run of `diff_contiguity_broken_by_sync_write`, discharging both
hypotheses at that input. -/
theorem diff_chain_bounds_witness :
    chainOK none (runList (initialState "BTC-USD") demoInputs).records = true :=
  diff_chain_bounds (initialState "BTC-USD") demoInputs
    (by with_unfolding_all decide) (by with_unfolding_all decide)

/-- C1: the read loop's sequence-gap policy (`client.go`, lines 223-241).
For every inbound message for a known product: a book with sequence 0 gets
a resync and the message is discarded (its body is never interpreted — the
step is exactly the resync step, which reads only the snapshot oracle); a
header sequence at most the book sequence is silently ignored with the
whole state unchanged; a gapped header sequence gets a resync and the
message is discarded; and a message is applied only when its header
sequence is exactly the book sequence plus one, after which the book
sequence has increased by exactly 1, to the header sequence. -/
theorem seq_gap_policy (s : ClientState) (i : StepInput) :
    (s.book.Sequence = 0 →
        runStep s i = resyncStep s i.snapshot
        ∧ (runStep s i).2.1 = MsgAction.discardedResync)
    ∧ (s.book.Sequence ≠ 0 → i.header.sequence ≤ s.book.Sequence →
        runStep s i = (s, MsgAction.ignoredStale, none))
    ∧ (s.book.Sequence ≠ 0 → s.book.Sequence < i.header.sequence →
        i.header.sequence ≠ s.book.Sequence + 1 →
        runStep s i = resyncStep s i.snapshot
        ∧ (runStep s i).2.1 = MsgAction.discardedResync)
    ∧ ((runStep s i).2.1 = MsgAction.applied →
        s.book.Sequence ≠ 0 ∧ i.header.sequence = s.book.Sequence + 1
        ∧ (runStep s i).1.book.Sequence = s.book.Sequence + 1
        ∧ (runStep s i).1.book.Sequence = i.header.sequence) := by
  refine ⟨?_, ?_, ?_, ?_⟩
  · intro h0
    unfold runStep
    rw [if_pos h0]
    exact ⟨rfl, rfl⟩
  · intro h0 hle
    unfold runStep
    rw [if_neg h0, if_pos hle]
  · intro h0 hlt hne
    unfold runStep
    rw [if_neg h0, if_neg (by omega), if_pos hne]
    exact ⟨rfl, rfl⟩
  · intro ha
    by_cases h0 : s.book.Sequence = 0
    · unfold runStep at ha
      rw [if_pos h0] at ha
      simp [resyncStep] at ha
    by_cases hle : i.header.sequence ≤ s.book.Sequence
    · unfold runStep at ha
      rw [if_neg h0, if_pos hle] at ha
      simp at ha
    by_cases hne : i.header.sequence ≠ s.book.Sequence + 1
    · unfold runStep at ha
      rw [if_neg h0, if_neg hle, if_pos hne] at ha
      simp [resyncStep] at ha
    · have hseq : i.header.sequence = s.book.Sequence + 1 := by omega
      have hbook : (runStep s i).1.book.Sequence = i.header.sequence := by
        unfold runStep
        rw [if_neg h0, if_neg hle, if_neg hne]
        dsimp only
        rw [handleMessage_Sequence]
      exact ⟨h0, hseq, by rw [hbook, hseq], hbook⟩

/-- C1 (witness): the policy applied at a concrete stale message — a
synced book at sequence 7 receiving header sequence 3 — is silently
ignored with the state unchanged. -/
theorem seq_gap_policy_witness :
    runStep ⟨demoBook, 8, [], true⟩
        ⟨⟨"open", 3, "BTC-USD"⟩, none, Except.error FetchErr.httpErr, false, false⟩
      = (⟨demoBook, 8, [], true⟩, MsgAction.ignoredStale, none) :=
  (seq_gap_policy _ _).2.1 (by with_unfolding_all decide) (by with_unfolding_all decide)

/-- C5: checkpoint postconditions (`client.go`, lines 169-183). `WriteDiff`
writes nothing and changes nothing when both pending delta lists are
empty; when a diff is pending it writes exactly one diff record spanning
`[LastDiffSeq, book.Sequence]` with the pending deltas, resets the pending
diff, and advances `LastDiffSeq` to `book.Sequence + 1`; `WriteSync`
unconditionally writes the full snapshot record, resets the pending diff,
and advances `LastDiffSeq` to `book.Sequence + 1`. After either persisted
checkpoint the pending diff is empty. -/
theorem checkpoint_postconditions (b : Book) (lds : ℕ) :
    (b.DiffBid = [] ∧ b.DiffAsk = [] → writeDiff b lds = (b, lds, none))
    ∧ (¬(b.DiffBid = [] ∧ b.DiffAsk = []) →
        writeDiff b lds =
          (b.resetDiff, b.Sequence + 1,
            some (Rec.diff lds b.Sequence b.DiffBid b.DiffAsk)))
    ∧ writeSync b lds = (b.resetDiff, b.Sequence + 1, some (Rec.syncSnap b.Sequence))
    ∧ b.resetDiff.DiffBid = [] ∧ b.resetDiff.DiffAsk = [] := by
  refine ⟨?_, ?_, rfl, rfl, rfl⟩
  · rintro ⟨h1, h2⟩
    unfold writeDiff
    rw [if_neg]
    simp [h1, h2]
  · intro h
    unfold writeDiff
    rw [if_pos]
    simp only [ne_eq, List.length_eq_zero]
    exact not_and_or.mp h

/-- C5 (witness): the checkpoint postconditions at a concrete book with a
pending bid delta: the diff record spans `[5, 7]` and `LastDiffSeq`
advances to 8. -/
theorem checkpoint_postconditions_witness :
    writeDiff demoBookPending 5 =
      (demoBookPending.resetDiff, 8, some (Rec.diff 5 7 [(10, -1)] [])) :=
  (checkpoint_postconditions demoBookPending 5).2.1 (by with_unfolding_all decide)

/-- C8: `change` event semantics (`client.go`, lines 131-148). When the
referenced order id is not in the book's order index the event is a
complete no-op on the book; when it is, the event is applied as exactly a
synthetic match of size `old_size - new_size` at the event's price and
side, with the referenced order as maker and the change-derived flag set
to true (and the local `trade` variable stays unset). -/
theorem change_event_semantics (b : Book) (oid os nsz pr sd : String) :
    ((b.Orders.any fun o => o.id == oid) = false →
        applyEvent b "change" (mkChangeData oid os nsz pr sd) = Except.ok (b, none))
    ∧ ((b.Orders.any fun o => o.id == oid) = true →
        applyEvent b "change" (mkChangeData oid os nsz pr sd)
          = Except.ok
              (b.matchEv
                ⟨parseFloat os - parseFloat nsz, parseFloat pr, sd, oid, none, none⟩ true,
               none)) := by
  constructor
  · intro hany
    simp [applyEvent, mkChangeData, lookupJ, asString, hany]
  · intro hany
    simp [applyEvent, mkChangeData, lookupJ, asString, hany]

/-- C8 (witness): a change to the known order `B` (old size 5, new size 3)
on the concrete book is applied as a synthetic match of size 2. -/
theorem change_event_semantics_witness :
    applyEvent demoBook "change" (mkChangeData "B" "5" "3" "10" "buy")
      = Except.ok
          (demoBook.matchEv
            ⟨parseFloat "5" - parseFloat "3", parseFloat "10", "buy", "B", none, none⟩ true,
           none) :=
  (change_event_semantics demoBook "B" "5" "3" "10" "buy").2 (by with_unfolding_all decide)

/-- The `match` arm on a well-shaped body: `Match` is called with the
event's fields, and the local `trade` variable picks up the appended
trade. -/
theorem applyEvent_match_eq (b : Book) (pr sz sd mk tk tm : String) :
    applyEvent b "match" (mkMatchData pr sz sd mk tk tm)
      = Except.ok
          (b.matchEv ⟨parseFloat sz, parseFloat pr, sd, mk, some tk, some tm⟩ false,
           some ⟨parseFloat pr, parseFloat sz, sd, mk, some tk, some tm, false⟩) := by
  have hlast :
      (b.matchEv ⟨parseFloat sz, parseFloat pr, sd, mk, some tk, some tm⟩ false).Trades.getLast?
        = some ⟨parseFloat pr, parseFloat sz, sd, mk, some tk, some tm, false⟩ := by
    rw [Book.matchEv_Trades, List.getLast?_concat]
  simp [applyEvent, mkMatchData, lookupJ, asString, hlast]

/-- C2 (counterexample): a `change` message for a known order produces a
trade (the book's trade log grows by one) but writes no record at all —
the local `trade` variable is only set in the `match` arm, so the
change-derived synthetic trade is not written to the store, contradicting
"written immediately and unconditionally for every such message". Store
is enabled; both batching timers are off, so the record list is exactly
what the trade path writes. -/
theorem change_trade_not_written :
    (handleMessage demoBook 7 "change" (some (mkChangeData "B" "5" "3" "10" "buy"))
        false false true).1.2.2 = []
    ∧ (handleMessage demoBook 7 "change" (some (mkChangeData "B" "5" "3" "10" "buy"))
        false false true).1.1.Trades.length = demoBook.Trades.length + 1
    ∧ (handleMessage demoBook 7 "change" (some (mkChangeData "B" "5" "3" "10" "buy"))
        false false true).2 = none := by
  refine ⟨?_, by with_unfolding_all decide, by with_unfolding_all decide⟩
  with_unfolding_all rfl

/-- C2 (amended): only genuine `match` events cause an immediate,
unconditional trade write. For every `match` message with a well-shaped
body, the first record written by the persistence block is the trade,
regardless of the batching timers; for every `change` message, no trade
record is ever written in that step (the synthetic trade reaches only the
in-memory trade log). -/
theorem trade_write_policy (b : Book) (lds : ℕ) (ns nd : Bool)
    (pr sz sd mk tk tm : String) :
    ((handleMessage b lds "match" (some (mkMatchData pr sz sd mk tk tm)) ns nd true).1.2.2.head?
        = some (Rec.trade ⟨parseFloat pr, parseFloat sz, sd, mk, some tk, some tm, false⟩))
    ∧ (∀ (body : Option JMap) (lds2 : ℕ) (ns2 nd2 dbE : Bool) (r : Rec),
        r ∈ (handleMessage b lds2 "change" body ns2 nd2 dbE).1.2.2 →
          isTradeRec r = false) := by
  constructor
  · unfold handleMessage
    dsimp only
    rw [show (some (mkMatchData pr sz sd mk tk tm)).getD [] = mkMatchData pr sz sd mk tk tm
      from rfl]
    rw [applyEvent_match_eq]
    dsimp only
    unfold persistPhase writeSync writeDiff
    repeat' split
    all_goals dsimp only
    all_goals simp_all
  · intro body lds2 ns2 nd2 dbE r hr
    unfold handleMessage at hr
    dsimp only at hr
    cases happ : applyEvent b "change" (body.getD []) with
    | error p =>
      rw [happ] at hr
      simp at hr
    | ok bt =>
      obtain ⟨b2, tr⟩ := bt
      rw [happ] at hr
      dsimp only at hr
      have htr : tr = none :=
        applyEvent_trade_none b "change" (body.getD []) b2 tr (by decide) happ
      subst htr
      unfold persistPhase writeSync writeDiff at hr
      repeat' split at hr
      all_goals simp_all [isTradeRec]

/-- C2 (witness): the amended policy at concrete inputs — a diff record
written by a `change` step is not a trade record, and a concrete `match`
message writes its trade first. -/
theorem trade_write_policy_witness :
    isTradeRec (Rec.diff 8 7 [(10, -2)] []) = false
    ∧ (handleMessage demoBook 8 "match" (some (mkMatchData "10" "2" "buy" "B" "T" "t9"))
        false false true).1.2.2.head?
      = some (Rec.trade
          ⟨parseFloat "10", parseFloat "2", "buy", "B", some "T", some "t9", false⟩) :=
  ⟨(trade_write_policy demoBook 8 false false "x" "x" "x" "x" "x" "x").2
      (some (mkChangeData "B" "5" "3" "10" "buy")) 8 false true true
      (Rec.diff 8 7 [(10, -2)] [])
      (by with_unfolding_all exact List.Mem.head _),
   (trade_write_policy demoBook 8 false false "10" "2" "buy" "B" "T" "t9").1⟩

/-- C3: in `SyncBook`, persistence comes first (`src/unnamed/part_000`,
lines 22-30). For every fetch outcome, either the sync performs no effect
at all and leaves the book untouched (fetch error, or a snapshot without a
`sequence` key), or the very first effect of its trace is the
`client.WriteDB` persistence of the raw sync-tagged snapshot — so every
in-memory mutation (`Clear`, the sequence assignment, every insertion)
happens strictly after the durable baseline is written. -/
theorem sync_persists_before_mutation (b : Book) (fetch : Except FetchErr JMap) :
    ((syncBook b fetch).trace = [] ∧ (syncBook b fetch).book = b)
    ∨ ∃ m rest, (syncBook b fetch).trace = SyncEv.persistRaw m :: rest
        ∧ isMutationEv (SyncEv.persistRaw m) = false := by
  unfold syncBook
  cases fetch with
  | error e => exact Or.inl ⟨rfl, rfl⟩
  | ok full =>
    dsimp only
    cases hseq : lookupJ full "sequence" with
    | none =>
      simp only [hseq]
      exact Or.inl ⟨by trivial, by trivial⟩
    | some seqv =>
      simp only [hseq]
      cases seqv with
      | jstr s => exact Or.inr ⟨_, _, rfl, rfl⟩
      | jarr a => exact Or.inr ⟨_, _, rfl, rfl⟩
      | jnum q =>
        dsimp only
        split
        · exact Or.inr ⟨_, _, rfl, rfl⟩
        · exact Or.inr ⟨_, _, rfl, rfl⟩

/-- C4 (counterexample): the claim "SyncBook returns an error whenever …
field-shape parsing of the snapshot fails, … leaves the book unchanged
with book.sequence == 0" is false as stated: a decoded snapshot without a
`sequence` key makes `SyncBook` return nil (no error, the fetch succeeded
and the shape check silently skips), and a fetch failure during a
gap-triggered resync leaves the book at its previous nonzero sequence,
not at 0. -/
theorem sync_missing_sequence_no_error :
    (syncBook (Book.new "BTC-USD") (Except.ok [("foo", JValue.jstr "bar")])).err = none
    ∧ (syncBook (Book.new "BTC-USD") (Except.ok [("foo", JValue.jstr "bar")])).book
        = Book.new "BTC-USD"
    ∧ (syncBook demoBook (Except.error FetchErr.httpErr)).book.Sequence ≠ 0 := by
  refine ⟨rfl, rfl, by with_unfolding_all decide⟩

/-- C4 (amended): `SyncBook` returns the error exactly when `FetchRawBook`
fails (HTTP fetch, body read, or JSON decode), and in every such case the
book is left completely unchanged — so a never-synced book keeps
`sequence == 0` and its messages keep being discarded until a sync
succeeds. A decoded snapshot without a `sequence` key is not an error: it
is silently skipped, also leaving the book unchanged. -/
theorem sync_fetch_error_behavior :
    (∀ (b : Book) (e : FetchErr),
        syncBook b (Except.error e) = ⟨some e, b, [], none⟩)
    ∧ (∀ (b : Book) (m : JMap), lookupJ m "sequence" = none →
        syncBook b (Except.ok m) = ⟨none, b, [], none⟩) := by
  constructor
  · intro b e
    rfl
  · intro b m hm
    unfold syncBook
    simp only [hm]

/-- C4 (witness): the amended behavior at concrete inputs — the fetch
error is returned with the synced book unchanged, and a snapshot without
a `sequence` key yields nil with the fresh book unchanged. -/
theorem sync_fetch_error_behavior_witness :
    syncBook demoBook (Except.error FetchErr.readErr) = ⟨some FetchErr.readErr, demoBook, [], none⟩
    ∧ syncBook (Book.new "BTC-USD") (Except.ok [("foo", JValue.jstr "bar")])
        = ⟨none, Book.new "BTC-USD", [], none⟩ :=
  ⟨sync_fetch_error_behavior.1 demoBook FetchErr.readErr,
   sync_fetch_error_behavior.2 (Book.new "BTC-USD") [("foo", JValue.jstr "bar")] rfl⟩

/-- The loading loop over well-shaped entries: every entry becomes one
`Add` of its order, in list order, with no panic. -/
theorem loadLoop_entries (side : String) (l : List (String × String × String)) (b : Book) :
    loadLoop side (l.map entryJ) b
      = (l.foldl (fun bk e => bk.add (snapOrder side e)) b,
         l.map (fun e => SyncEv.insert (snapOrder side e)), none) := by
  induction l generalizing b with
  | nil => rfl
  | cons e rest ih =>
    obtain ⟨p, sz, oid⟩ := e
    simp [loadLoop, entryJ, asArr, idxStr, asString, snapOrder, ih]

/-- C7: reverse snapshot loading (`src/unnamed/part_000`, lines 31-58).
For every well-shaped snapshot, the sync trace is exactly: persist the
raw tagged snapshot, clear the book, set the sequence, then insert every
bid and after them every ask, each side iterated from its list's last
element toward its first — so the insertion order among same-price
orders is exactly the reference's reverse iteration order. -/
theorem sync_reverse_iteration (b : Book) (q : ℚ)
    (bids asks : List (String × String × String)) :
    (syncBook b (Except.ok (mkSnapshot q bids asks))).trace
      = SyncEv.persistRaw (setKey (mkSnapshot q bids asks) "type" (JValue.jstr "sync"))
        :: SyncEv.clear :: SyncEv.setSeq (ratToUint q)
        :: (bids.reverse.map (fun e => SyncEv.insert (snapOrder "buy" e))
            ++ asks.reverse.map (fun e => SyncEv.insert (snapOrder "sell" e))) := by
  unfold syncBook
  dsimp only
  rw [show lookupJ (mkSnapshot q bids asks) "sequence" = some (JValue.jnum q) from rfl]
  dsimp only
  rw [show lookupJ (setKey (mkSnapshot q bids asks) "type" (JValue.jstr "sync")) "bids"
      = some (JValue.jarr (bids.map entryJ)) from rfl]
  rw [show lookupJ (setKey (mkSnapshot q bids asks) "type" (JValue.jstr "sync")) "asks"
      = some (JValue.jarr (asks.map entryJ)) from rfl]
  unfold loadStage
  dsimp only
  rw [← List.map_reverse, ← List.map_reverse, loadLoop_entries, loadLoop_entries]

/-- C9: malformed payloads are fatal (`client.go`, lines 93-114). A
concrete `open` message passes the header parse and the sequence check
(sequence 8 against a book at 7, so the step reaches `HandleMessage` as an
applied message), but its body fails to unmarshal — which is only logged,
leaving the payload map empty, and the handler proceeds — so the unchecked
assertion `data["price"].(string)` on the missing key aborts the process
instead of returning a recoverable error; nothing is written for the
message. Likewise for a body that decodes but carries a non-string
`price`. -/
theorem malformed_payload_fatal :
    ((runStep ⟨demoBook, 8, [], true⟩
        ⟨⟨"open", 8, "BTC-USD"⟩, none, Except.error FetchErr.httpErr, false, false⟩).2.1
        = MsgAction.applied
      ∧ (runStep ⟨demoBook, 8, [], true⟩
          ⟨⟨"open", 8, "BTC-USD"⟩, none, Except.error FetchErr.httpErr, false, false⟩).2.2
        = some GoPanic.typeAssert
      ∧ (runStep ⟨demoBook, 8, [], true⟩
          ⟨⟨"open", 8, "BTC-USD"⟩, none, Except.error FetchErr.httpErr, false, false⟩).1.records.length
        = 0)
    ∧ applyEvent demoBook "open" [("price", JValue.jnum 10)]
        = Except.error GoPanic.typeAssert := by
  exact ⟨⟨by with_unfolding_all decide, by with_unfolding_all decide,
    by with_unfolding_all decide⟩, by with_unfolding_all rfl⟩

/-- C10: `Connect` (`client.go`, lines 70-85) returns nil whenever the
dial succeeds, for every outcome of the subscribe-frame write — the write
error is assigned but never inspected or returned — and returns the dial
error (with no socket stored and no subscribe sent) only when the dial
fails. -/
theorem connect_ignores_subscribe_error :
    (∀ w : Except FetchErr Unit, connect (Except.ok ()) w = ⟨none, true, true⟩)
    ∧ (∀ (e : FetchErr) (w : Except FetchErr Unit),
        connect (Except.error e) w = ⟨some e, false, false⟩) :=
  ⟨fun _ => rfl, fun _ _ => rfl⟩
